import Mathlib

/-!
Shallow embedding of `resolve-vars` (src/index.js): a `Resolver` caching
key/value pairs fetched from a remote key-value store (Consul).

The source holds two variants of the `Resolver` class; we embed the mapped
variant (the one whose `task` takes an object of local-name/remote-key pairs,
whose `set` accepts two or three arguments, and whose cache entries are
`{ path, value }` records), which is the variant the claims' properties are
phrased over.

JS `undefined` is modelled as `Option.none`.  The remote client is modelled as
an oracle `KV` giving, for each key, the outcome of a read (`consul.kv.get`)
and, for each key/value pair, the outcome of a write (`consul.kv.set`).
Each operation returns the new cache, its result, and a trace of the remote
calls it issued, in order.
-/

/-- Errors surfaced by the remote store client (network failures etc.);
the payload is opaque to the Resolver, which never inspects it. -/
abbrev StoreErr := String

/-- One remote call issued through the consul client. -/
inductive RemoteOp where
  | read (key : String)
  | write (key : String) (val : String)
deriving Repr, DecidableEq

/-- The remote key-value client capability: `read key` models the outcome the
`consul.kv.get(key, cb)` callback reports (`err`, or `res && res.Value`, where
`none` is an unset key / missing `Value`), and `write key val` models the
outcome the `consul.kv.set(key, val, cb)` callback reports. -/
structure KV where
  read : String → Except StoreErr (Option String)
  write : String → String → Except StoreErr Unit

/-- A cache entry `{ path, value }` as stored in `this._vars[name]`:
`path` is the remote key, `value` the last fetched/written value
(`none` when the field is unset or holds `undefined`). -/
structure VarEntry where
  path : String
  value : Option String
deriving Repr, DecidableEq

/-- The Resolver cache `this._vars`: a JS object mapping local names to
entries; `none` models the absence of the property. -/
abbrev Cache := String → Option VarEntry

/-- The cache of a freshly constructed Resolver: `this._vars = {}`. -/
def Cache.empty : Cache := fun _ => none

/-- JS object assignment `this._vars[name] = e` (creates or overwrites). -/
def Cache.update (c : Cache) (name : String) (e : VarEntry) : Cache :=
  fun m => if m = name then some e else c m

/-- JS field assignment `this._vars[name].value = val`.  The source performs
this only from `task`, which registered `this._vars[name]` first, so the entry
is always present there; on an absent entry (unreachable through the public
API, where the source would throw) the cache is left unchanged. -/
def Cache.setVal (c : Cache) (name : String) (val : Option String) : Cache :=
  fun m => if m = name then (c name).map (fun e => ⟨e.path, val⟩) else c m

/-- `var(name)`: `const vr = this._vars[name]; return vr && vr.value;` —
`undefined` when the name has no entry, otherwise the entry's `value`. -/
def Resolver.var (c : Cache) (name : String) : Option String :=
  match c name with
  | none => none
  | some vr => vr.value

/-- `_get(name, path)`: issues `this._consul.kv.get(path, ...)`; on error
rejects with it, leaving the cache alone; on success caches
`val = res && res.Value` under `name` and resolves with `val`. -/
def Resolver._get (kv : KV) (c : Cache) (name path : String) :
    Cache × Except StoreErr (Option String) × List RemoteOp :=
  match kv.read path with
  | .error e => (c, .error e, [.read path])
  | .ok val => (c.setVal name val, .ok val, [.read path])

/-- `set(name, path, val)`: when `val === undefined` the two-argument form was
used, so the value is the second argument and the path defaults to `name`.
Issues `this._consul.kv.set(path, val, ...)`; on error rejects with it leaving
the cache alone; on success overwrites `this._vars[name] = { path, value: val }`
and resolves. -/
def Resolver.set (kv : KV) (c : Cache) (name arg2 : String) (arg3 : Option String) :
    Cache × Except StoreErr Unit × List RemoteOp :=
  let val : String := arg3.getD arg2
  let path : String := if arg3.isSome then arg2 else name
  match kv.write path val with
  | .error e => (c, .error e, [.write path val])
  | .ok _ => (c.update name ⟨path, some val⟩, .ok (), [.write path val])

/-- The registration half of `task(vars)`, run when `task` itself is called:
`keys.forEach((key) => { this._vars[key] = { path: vars[key] }; })` — each
local name gets a fresh entry recording its remote key, value unset.  The JS
object argument is modelled as an association list (its first components are
distinct, `Object.keys` being duplicate-free). -/
def Resolver.taskRegister (c : Cache) (vars : List (String × String)) : Cache :=
  vars.foldl (fun c p => c.update p.1 ⟨p.2, none⟩) c

/-- The returned handle of `task(vars)`:
`Promise.all(keys.map((key) => this._get(key, vars[key])))`, calling back with
nothing on success of every read and with the first error otherwise.
`Promise.all` dispatches every read before any completes and cancels none, so
every read fires and every successful one updates the cache even when an
earlier one failed; completion is modelled in list order, so the propagated
error is the first failing read in that order. -/
def Resolver.taskRun (kv : KV) (c : Cache) (vars : List (String × String)) :
    Cache × Except StoreErr Unit × List RemoteOp :=
  match vars with
  | [] => (c, .ok (), [])
  | p :: rest =>
    let s := Resolver._get kv c p.1 p.2
    let r := Resolver.taskRun kv s.1 rest
    (r.1,
     (match s.2.1 with
      | .error e => .error e
      | .ok _ => r.2.1),
     s.2.2 ++ r.2.2)

/-- Calling `task(vars)` and immediately invoking the returned handle once:
registration happens at `task` time, the fetches at invocation time. -/
def Resolver.taskInvoke (kv : KV) (c : Cache) (vars : List (String × String)) :
    Cache × Except StoreErr Unit × List RemoteOp :=
  Resolver.taskRun kv (Resolver.taskRegister c vars) vars

/-- `var` as a state-and-trace operation: its body only reads `this._vars`,
mutates nothing and invokes no consul method. -/
def Resolver.varOp (c : Cache) (name : String) :
    Option String × Cache × List RemoteOp :=
  (Resolver.var c name, c, [])

/-- One call a client can make on a Resolver instance:
registering a bulk task, invoking a (previously registered) task handle,
a single fetch, a write, or a cache lookup. -/
inductive RAction where
  | taskReg (vars : List (String × String))
  | taskInv (vars : List (String × String))
  | getOne (name path : String)
  | setOne (name arg2 : String) (arg3 : Option String)
  | varRead (name : String)
deriving Repr, DecidableEq

/-- The local names an action registers, sets or resolves. -/
def RAction.names : RAction → List String
  | .taskReg vars => vars.map Prod.fst
  | .taskInv vars => vars.map Prod.fst
  | .getOne name _ => [name]
  | .setOne name _ _ => [name]
  | .varRead _ => []

/-- Effect of one client call on the cache, with its remote-call trace. -/
def Resolver.step (kv : KV) (c : Cache) : RAction → Cache × List RemoteOp
  | .taskReg vars => (Resolver.taskRegister c vars, [])
  | .taskInv vars =>
    let r := Resolver.taskRun kv c vars
    (r.1, r.2.2)
  | .getOne name path =>
    let r := Resolver._get kv c name path
    (r.1, r.2.2)
  | .setOne name arg2 arg3 =>
    let r := Resolver.set kv c name arg2 arg3
    (r.1, r.2.2)
  | .varRead name =>
    let r := Resolver.varOp c name
    (r.2.1, r.2.2)

/-- Running a sequence of client calls from a given cache. -/
def Resolver.run (kv : KV) (c : Cache) : List RAction → Cache
  | [] => c
  | a :: acts => Resolver.run kv (Resolver.step kv c a).1 acts

/-! Helper lemmas about the cache primitives. -/

theorem Cache.update_self (c : Cache) (n : String) (e : VarEntry) :
    Cache.update c n e n = some e := by
  simp [Cache.update]

theorem Cache.update_other (c : Cache) (n : String) (e : VarEntry) (m : String)
    (h : m ≠ n) : Cache.update c n e m = c m := by
  simp [Cache.update, h]

theorem Cache.setVal_self (c : Cache) (n : String) (v : Option String) :
    Cache.setVal c n v n = (c n).map (fun e => ⟨e.path, v⟩) := by
  simp [Cache.setVal]

theorem Cache.setVal_other (c : Cache) (n : String) (v : Option String) (m : String)
    (h : m ≠ n) : Cache.setVal c n v m = c m := by
  simp [Cache.setVal, h]

theorem Cache.setVal_entry (c : Cache) (n : String) (v : Option String) (m : String)
    (e : VarEntry) (h : c m = some e) :
    ∃ f : VarEntry, Cache.setVal c n v m = some f := by
  by_cases hm : m = n
  · subst hm
    exact ⟨⟨e.path, v⟩, by rw [Cache.setVal_self, h]; rfl⟩
  · exact ⟨e, by rw [Cache.setVal_other c n v m hm, h]⟩

/-! Helper lemmas about task registration. -/

theorem taskRegister_other (vars : List (String × String)) (c : Cache) (n : String)
    (h : n ∉ vars.map Prod.fst) : Resolver.taskRegister c vars n = c n := by
  induction vars generalizing c with
  | nil => rfl
  | cons q rest ih =>
    simp only [List.map_cons, List.mem_cons, not_or] at h
    rw [Resolver.taskRegister, List.foldl_cons, ← Resolver.taskRegister,
      ih _ h.2, Cache.update_other _ _ _ _ h.1]

theorem taskRegister_mem (vars : List (String × String)) (c : Cache)
    (p : String × String) (hnd : (vars.map Prod.fst).Nodup) (hp : p ∈ vars) :
    Resolver.taskRegister c vars p.1 = some ⟨p.2, none⟩ := by
  induction vars generalizing c with
  | nil => cases hp
  | cons q rest ih =>
    rw [List.map_cons, List.nodup_cons] at hnd
    rw [Resolver.taskRegister, List.foldl_cons, ← Resolver.taskRegister]
    rcases List.mem_cons.mp hp with hq | hrest
    · subst hq
      rw [taskRegister_other rest _ p.1 hnd.1, Cache.update_self]
    · exact ih _ hnd.2 hrest

/-! Helper lemmas about the task handle's fetch loop. -/

theorem taskRun_trace (vars : List (String × String)) (kv : KV) (c : Cache) :
    (Resolver.taskRun kv c vars).2.2 = vars.map (fun p => RemoteOp.read p.2) := by
  induction vars generalizing c with
  | nil => rfl
  | cons q rest ih =>
    rw [Resolver.taskRun]
    cases hq : kv.read q.2 with
    | error e => simp [Resolver._get, hq, ih]
    | ok v => simp [Resolver._get, hq, ih]

theorem taskRun_other (vars : List (String × String)) (kv : KV) (c : Cache)
    (n : String) (h : n ∉ vars.map Prod.fst) :
    (Resolver.taskRun kv c vars).1 n = c n := by
  induction vars generalizing c with
  | nil => rfl
  | cons q rest ih =>
    simp only [List.map_cons, List.mem_cons, not_or] at h
    rw [Resolver.taskRun]
    cases hq : kv.read q.2 with
    | error e => simpa [Resolver._get, hq] using ih c h.2
    | ok v =>
      simpa [Resolver._get, hq] using
        (ih _ h.2).trans (Cache.setVal_other c q.1 v n h.1)

theorem taskRun_entry (vars : List (String × String)) (kv : KV) (c : Cache)
    (m : String) (e : VarEntry) (h : c m = some e) :
    ∃ f : VarEntry, (Resolver.taskRun kv c vars).1 m = some f := by
  induction vars generalizing c e with
  | nil => exact ⟨e, h⟩
  | cons q rest ih =>
    rw [Resolver.taskRun]
    cases hq : kv.read q.2 with
    | error _ => simpa [Resolver._get, hq] using ih c e h
    | ok v =>
      obtain ⟨f, hf⟩ := Cache.setVal_entry c q.1 v m e h
      simpa [Resolver._get, hq] using ih _ f hf

theorem taskRun_ok_reads (vars : List (String × String)) (kv : KV) (c : Cache)
    (h : (Resolver.taskRun kv c vars).2.1 = Except.ok ()) :
    ∀ p ∈ vars, ∃ v, kv.read p.2 = Except.ok v := by
  induction vars generalizing c with
  | nil => intro p hp; cases hp
  | cons q rest ih =>
    rw [Resolver.taskRun] at h
    intro p hp
    cases hq : kv.read q.2 with
    | error e => simp [Resolver._get, hq] at h
    | ok v =>
      simp only [Resolver._get, hq] at h
      rcases List.mem_cons.mp hp with hpq | hrest
      · exact ⟨v, hpq ▸ hq⟩
      · exact ih _ h p hrest

theorem taskRun_result_err (pre post : List (String × String)) (kv : KV) (c : Cache)
    (nf kf : String) (e : StoreErr)
    (hpre : ∀ p ∈ pre, ∃ v, kv.read p.2 = Except.ok v)
    (hf : kv.read kf = Except.error e) :
    (Resolver.taskRun kv c (pre ++ (nf, kf) :: post)).2.1 = Except.error e := by
  induction pre generalizing c with
  | nil => simp [Resolver.taskRun, Resolver._get, hf]
  | cons q rest ih =>
    obtain ⟨v, hv⟩ := hpre q (List.mem_cons_self q rest)
    rw [List.cons_append, Resolver.taskRun]
    simpa [Resolver._get, hv] using
      ih _ (fun p hp => hpre p (List.mem_cons_of_mem q hp))

theorem taskRun_var (vars : List (String × String)) (kv : KV) (c : Cache)
    (hnd : (vars.map Prod.fst).Nodup)
    (hsome : ∀ q ∈ vars, ∃ e : VarEntry, c q.1 = some e) :
    ∀ p ∈ vars, ∀ v, kv.read p.2 = Except.ok v →
      Resolver.var (Resolver.taskRun kv c vars).1 p.1 = v := by
  induction vars generalizing c with
  | nil => intro p hp; cases hp
  | cons q rest ih =>
    rw [List.map_cons, List.nodup_cons] at hnd
    intro p hp v hv
    rcases List.mem_cons.mp hp with hpq | hrest
    · subst hpq
      obtain ⟨e, he⟩ := hsome p (List.mem_cons_self p rest)
      rw [Resolver.taskRun]
      simp only [Resolver._get, hv]
      have hfin : (Resolver.taskRun kv (c.setVal p.1 v) rest).1 p.1
          = some ⟨e.path, v⟩ := by
        rw [taskRun_other rest kv _ p.1 hnd.1, Cache.setVal_self, he]
        rfl
      simp [Resolver.var, hfin]
    · rw [Resolver.taskRun]
      cases hq : kv.read q.2 with
      | error _ =>
        simp only [Resolver._get, hq]
        exact ih _ hnd.2
          (fun r hr => hsome r (List.mem_cons_of_mem q hr)) p hrest v hv
      | ok w =>
        simp only [Resolver._get, hq]
        refine ih _ hnd.2 (fun r hr => ?_) p hrest v hv
        obtain ⟨e, he⟩ := hsome r (List.mem_cons_of_mem q hr)
        exact Cache.setVal_entry c q.1 w r.1 e he

/-! Frame lemmas: operations touch only the local names they are given. -/

theorem get_other (kv : KV) (c : Cache) (name path m : String) (h : m ≠ name) :
    (Resolver._get kv c name path).1 m = c m := by
  cases hq : kv.read path with
  | error e => simp [Resolver._get, hq]
  | ok v => simp [Resolver._get, hq, Cache.setVal_other c name v m h]

theorem set_other (kv : KV) (c : Cache) (name arg2 : String) (arg3 : Option String)
    (m : String) (h : m ≠ name) : (Resolver.set kv c name arg2 arg3).1 m = c m := by
  cases hw : kv.write (if arg3.isSome then arg2 else name) (arg3.getD arg2) with
  | error e => simp [Resolver.set, hw]
  | ok v => simp [Resolver.set, hw, Cache.update_other _ _ _ _ h]

theorem step_other (kv : KV) (c : Cache) (a : RAction) (n : String)
    (h : n ∉ a.names) : (Resolver.step kv c a).1 n = c n := by
  cases a with
  | taskReg vars => exact taskRegister_other vars c n h
  | taskInv vars => exact taskRun_other vars kv c n h
  | getOne name path =>
    exact get_other kv c name path n (by simpa [RAction.names] using h)
  | setOne name arg2 arg3 =>
    exact set_other kv c name arg2 arg3 n (by simpa [RAction.names] using h)
  | varRead name => rfl

theorem run_other (kv : KV) (acts : List RAction) (c : Cache) (n : String)
    (h : ∀ a ∈ acts, n ∉ a.names) : Resolver.run kv c acts n = c n := by
  induction acts generalizing c with
  | nil => rfl
  | cons a acts ih =>
    rw [Resolver.run, ih _ (fun b hb => h b (List.mem_cons_of_mem a hb)),
      step_other kv c a n (h a (List.mem_cons_self a acts))]

/-! The claims. -/

/-- C1: after a bulk resolution via the task handle completes successfully,
for every registered pair the synchronous lookup of the local name returns
exactly the value the remote read of its key returned. -/
theorem c1_task_success_var_eq_read (kv : KV) (c : Cache)
    (vars : List (String × String)) (hnd : (vars.map Prod.fst).Nodup)
    (hok : (Resolver.taskInvoke kv c vars).2.1 = Except.ok ()) :
    ∀ p ∈ vars, ∃ v, kv.read p.2 = Except.ok v ∧
      Resolver.var (Resolver.taskInvoke kv c vars).1 p.1 = v := by
  simp only [Resolver.taskInvoke] at hok ⊢
  intro p hp
  obtain ⟨v, hv⟩ :=
    taskRun_ok_reads vars kv (Resolver.taskRegister c vars) hok p hp
  exact ⟨v, hv, taskRun_var vars kv _ hnd
    (fun q hq => ⟨⟨q.2, none⟩, taskRegister_mem vars c q hnd hq⟩) p hp v hv⟩

/-- C2: a successful set issues exactly one remote write of the value to the
resolved remote key, overwrites the cache entry for the local name with that
remote key and value, and a subsequent lookup returns the value; the
operation issues no remote read at all. -/
theorem c2_set_write_through (kv : KV) (c : Cache) (name arg2 : String)
    (arg3 : Option String)
    (hw : kv.write (if arg3.isSome then arg2 else name) (arg3.getD arg2) =
      Except.ok ()) :
    Resolver.set kv c name arg2 arg3 =
      (Cache.update c name
        ⟨if arg3.isSome then arg2 else name, some (arg3.getD arg2)⟩,
       Except.ok (),
       [RemoteOp.write (if arg3.isSome then arg2 else name) (arg3.getD arg2)]) ∧
    Resolver.var (Resolver.set kv c name arg2 arg3).1 name =
      some (arg3.getD arg2) ∧
    ∀ k, RemoteOp.read k ∉ (Resolver.set kv c name arg2 arg3).2.2 := by
  refine ⟨?_, ?_, ?_⟩
  · simp [Resolver.set, hw]
  · simp [Resolver.set, hw, Resolver.var, Cache.update_self]
  · intro k
    simp [Resolver.set, hw]

/-- C3: when a read of a bulk resolution fails, the invocation fails with the
first error, unmodified; every registered key is still read exactly once (no
retry), and every read that succeeded left its fetched value in the cache —
in particular the ones before the failure, which are not rolled back. -/
theorem c3_task_first_error_no_rollback (kv : KV) (c : Cache)
    (pre post : List (String × String)) (nf kf : String) (e : StoreErr)
    (hnd : ((pre ++ (nf, kf) :: post).map Prod.fst).Nodup)
    (hpre : ∀ p ∈ pre, ∃ v, kv.read p.2 = Except.ok v)
    (hf : kv.read kf = Except.error e) :
    (Resolver.taskInvoke kv c (pre ++ (nf, kf) :: post)).2.1 = Except.error e ∧
    (Resolver.taskInvoke kv c (pre ++ (nf, kf) :: post)).2.2 =
      (pre ++ (nf, kf) :: post).map (fun p => RemoteOp.read p.2) ∧
    ∀ p ∈ pre ++ (nf, kf) :: post, ∀ v, kv.read p.2 = Except.ok v →
      Resolver.var (Resolver.taskInvoke kv c (pre ++ (nf, kf) :: post)).1 p.1 = v := by
  simp only [Resolver.taskInvoke]
  refine ⟨taskRun_result_err pre post kv _ nf kf e hpre hf,
    taskRun_trace _ kv _, ?_⟩
  intro p hp v hv
  exact taskRun_var _ kv _ hnd
    (fun q hq => ⟨⟨q.2, none⟩, taskRegister_mem _ c q hnd hq⟩) p hp v hv

/-- C4: a single fetch whose remote read fails, and a set whose remote write
fails, each propagate the error unmodified and leave the cache exactly as it
was. -/
theorem c4_error_leaves_cache (kv : KV) (c : Cache) (name path narg arg2 : String)
    (arg3 : Option String) (e ew : StoreErr)
    (hr : kv.read path = Except.error e)
    (hw : kv.write (if arg3.isSome then arg2 else narg) (arg3.getD arg2) =
      Except.error ew) :
    Resolver._get kv c name path = (c, Except.error e, [RemoteOp.read path]) ∧
    Resolver.set kv c narg arg2 arg3 =
      (c, Except.error ew,
       [RemoteOp.write (if arg3.isSome then arg2 else narg) (arg3.getD arg2)]) := by
  constructor
  · simp [Resolver._get, hr]
  · simp [Resolver.set, hw]

/-- C5: a name that no call on a fresh Resolver ever registered, set, or
resolved maps to the absent indicator under the synchronous lookup. -/
theorem c5_untouched_var_absent (kv : KV) (acts : List RAction) (n : String)
    (h : ∀ a ∈ acts, n ∉ a.names) :
    Resolver.var (Resolver.run kv Cache.empty acts) n = none := by
  have hrun : Resolver.run kv Cache.empty acts n = none :=
    run_other kv acts Cache.empty n h
  simp [Resolver.var, hrun]

/-- C6: the synchronous lookup is a pure cache read: as a step of the
Resolver it leaves the cache unchanged and issues no remote call, and its
result is the cached value. -/
theorem c6_var_pure (kv : KV) (c : Cache) (name : String) :
    Resolver.step kv c (RAction.varRead name) = (c, ([] : List RemoteOp)) ∧
    (Resolver.varOp c name).1 = Resolver.var c name :=
  ⟨rfl, rfl⟩

/-- C7: registering a bulk task creates or overwrites, for every given pair,
a cache entry recording the remote key with the value left unset, and does so
at registration time: the registration step itself issues no remote call, the
fetches being deferred to the returned handle. -/
theorem c7_register_entries (kv : KV) (c : Cache) (vars : List (String × String))
    (p : String × String) (hnd : (vars.map Prod.fst).Nodup) (hp : p ∈ vars) :
    (Resolver.step kv c (RAction.taskReg vars)).1 p.1 = some ⟨p.2, none⟩ ∧
    (Resolver.step kv c (RAction.taskReg vars)).2 = ([] : List RemoteOp) :=
  ⟨taskRegister_mem vars c p hnd hp, rfl⟩

/-- C8: a remote read that succeeds but finds the key unset is a success
carrying the absent value: the fetch resolves with it, stores it in the cache
under the local name, and the subsequent lookup returns the absent
indicator. -/
theorem c8_unset_key_absent_success (kv : KV) (c : Cache) (name path : String)
    (e : VarEntry) (hr : kv.read path = Except.ok none) (hc : c name = some e) :
    Resolver._get kv c name path =
      (Cache.setVal c name none, Except.ok none, [RemoteOp.read path]) ∧
    Resolver.var (Resolver._get kv c name path).1 name = none := by
  constructor
  · simp [Resolver._get, hr]
  · have hentry : (Resolver._get kv c name path).1 name = some ⟨e.path, none⟩ := by
      simp [Resolver._get, hr, Cache.setVal_self, hc]
    simp [Resolver.var, hentry]

/-- C9: invoking a task handle twice issues two independent full fetch
sequences: each invocation, the second included, reads every registered key
from the remote store once, whatever the cache holds by then. -/
theorem c9_reinvocation_rereads (kv : KV) (c : Cache)
    (vars : List (String × String)) :
    (Resolver.taskRun kv (Resolver.taskRegister c vars) vars).2.2 =
      vars.map (fun p => RemoteOp.read p.2) ∧
    (Resolver.taskRun kv
        (Resolver.taskRun kv (Resolver.taskRegister c vars) vars).1 vars).2.2 =
      vars.map (fun p => RemoteOp.read p.2) :=
  ⟨taskRun_trace vars kv _, taskRun_trace vars kv _⟩

/-- C10: calling the three-argument set with an undefined third argument is
interpreted as the two-argument form: the second argument becomes the value,
the first serves as both local name and remote key, so the write goes to the
first argument's key carrying the second argument as value. -/
theorem c10_set_undefined_third_arg (kv : KV) (c : Cache) (n p : String)
    (hw : kv.write n p = Except.ok ()) :
    Resolver.set kv c n p none =
      (Cache.update c n ⟨n, some p⟩, Except.ok (), [RemoteOp.write n p]) := by
  simp [Resolver.set, hw]

/-! Concrete remote stores and runs exercising the theorems. -/

/-- A small concrete remote store: keys `k1` and `k2` hold values, `k3` is
unset, any other read fails; writes to `bad` fail, any other write
succeeds. -/
def kvDemo : KV where
  read := fun k =>
    if k = "k1" then .ok (some "v1")
    else if k = "k2" then .ok (some "v2")
    else if k = "k3" then .ok none
    else .error "boom"
  write := fun k _ => if k = "bad" then .error "wfail" else .ok ()

theorem c1_witness :
    ((([("a", "k1"), ("b", "k2")] : List (String × String)).map Prod.fst).Nodup) ∧
    ((Resolver.taskInvoke kvDemo Cache.empty [("a", "k1"), ("b", "k2")]).2.1 =
      Except.ok ()) ∧
    (∀ p ∈ ([("a", "k1"), ("b", "k2")] : List (String × String)),
      ∃ v, kvDemo.read p.2 = Except.ok v ∧
        Resolver.var
          (Resolver.taskInvoke kvDemo Cache.empty [("a", "k1"), ("b", "k2")]).1
          p.1 = v) :=
  ⟨by decide, rfl,
    c1_task_success_var_eq_read kvDemo Cache.empty _ (by decide) rfl⟩

theorem c2_witness :
    (kvDemo.write (if (some "v").isSome then "k9" else "x")
      ((some "v").getD "k9") = Except.ok ()) ∧
    (Resolver.set kvDemo Cache.empty "x" "k9" (some "v") =
      (Cache.update Cache.empty "x"
        ⟨if (some "v").isSome then "k9" else "x", some ((some "v").getD "k9")⟩,
       Except.ok (),
       [RemoteOp.write (if (some "v").isSome then "k9" else "x")
         ((some "v").getD "k9")]) ∧
     Resolver.var (Resolver.set kvDemo Cache.empty "x" "k9" (some "v")).1 "x" =
       some ((some "v").getD "k9") ∧
     ∀ k, RemoteOp.read k ∉
       (Resolver.set kvDemo Cache.empty "x" "k9" (some "v")).2.2) :=
  ⟨rfl, c2_set_write_through kvDemo Cache.empty "x" "k9" (some "v") rfl⟩

theorem c3_witness :
    ((([("a", "k1")] ++ ("x", "nope") :: [("b", "k2")]).map Prod.fst).Nodup) ∧
    (∀ p ∈ ([("a", "k1")] : List (String × String)),
      ∃ v, kvDemo.read p.2 = Except.ok v) ∧
    (kvDemo.read "nope" = Except.error "boom") ∧
    ((Resolver.taskInvoke kvDemo Cache.empty
        ([("a", "k1")] ++ ("x", "nope") :: [("b", "k2")])).2.1 =
      Except.error "boom" ∧
     (Resolver.taskInvoke kvDemo Cache.empty
        ([("a", "k1")] ++ ("x", "nope") :: [("b", "k2")])).2.2 =
      ([("a", "k1")] ++ ("x", "nope") :: [("b", "k2")]).map
        (fun p => RemoteOp.read p.2) ∧
     ∀ p ∈ [("a", "k1")] ++ ("x", "nope") :: [("b", "k2")],
       ∀ v, kvDemo.read p.2 = Except.ok v →
         Resolver.var (Resolver.taskInvoke kvDemo Cache.empty
           ([("a", "k1")] ++ ("x", "nope") :: [("b", "k2")])).1 p.1 = v) :=
  ⟨by decide,
   fun p hp => by
     rw [List.mem_singleton] at hp
     subst hp
     exact ⟨some "v1", rfl⟩,
   rfl,
   c3_task_first_error_no_rollback kvDemo Cache.empty [("a", "k1")]
     [("b", "k2")] "x" "nope" "boom" (by decide)
     (fun p hp => by
       rw [List.mem_singleton] at hp
       subst hp
       exact ⟨some "v1", rfl⟩)
     rfl⟩

theorem c4_witness :
    (kvDemo.read "nope" = Except.error "boom") ∧
    (kvDemo.write (if (some "v").isSome then "bad" else "y")
      ((some "v").getD "bad") = Except.error "wfail") ∧
    (Resolver._get kvDemo Cache.empty "a" "nope" =
      (Cache.empty, Except.error "boom", [RemoteOp.read "nope"]) ∧
     Resolver.set kvDemo Cache.empty "y" "bad" (some "v") =
      (Cache.empty, Except.error "wfail",
       [RemoteOp.write (if (some "v").isSome then "bad" else "y")
         ((some "v").getD "bad")])) :=
  ⟨rfl, rfl,
   c4_error_leaves_cache kvDemo Cache.empty "a" "nope" "y" "bad" (some "v")
     "boom" "wfail" rfl rfl⟩

theorem c5_witness :
    (∀ a ∈ ([RAction.taskReg [("a", "k1")], RAction.taskInv [("a", "k1")],
        RAction.setOne "b" "w" none, RAction.getOne "d" "k2",
        RAction.varRead "zz"] : List RAction), "zz" ∉ a.names) ∧
    Resolver.var
      (Resolver.run kvDemo Cache.empty
        [RAction.taskReg [("a", "k1")], RAction.taskInv [("a", "k1")],
         RAction.setOne "b" "w" none, RAction.getOne "d" "k2",
         RAction.varRead "zz"]) "zz" = none :=
  ⟨by decide,
   c5_untouched_var_absent kvDemo
     [RAction.taskReg [("a", "k1")], RAction.taskInv [("a", "k1")],
      RAction.setOne "b" "w" none, RAction.getOne "d" "k2",
      RAction.varRead "zz"] "zz" (by decide)⟩

theorem c7_witness :
    ((([("a", "k1"), ("b", "k2")] : List (String × String)).map Prod.fst).Nodup) ∧
    ((("b", "k2") : String × String) ∈
      ([("a", "k1"), ("b", "k2")] : List (String × String))) ∧
    ((Resolver.step kvDemo Cache.empty
        (RAction.taskReg [("a", "k1"), ("b", "k2")])).1 ("b", "k2").1 =
      some ⟨("b", "k2").2, none⟩ ∧
     (Resolver.step kvDemo Cache.empty
        (RAction.taskReg [("a", "k1"), ("b", "k2")])).2 = ([] : List RemoteOp)) :=
  ⟨by decide, by decide,
   c7_register_entries kvDemo Cache.empty [("a", "k1"), ("b", "k2")]
     ("b", "k2") (by decide) (by decide)⟩

theorem c8_witness :
    (kvDemo.read "k3" = Except.ok none) ∧
    (Cache.update Cache.empty "a" ⟨"k3", none⟩ "a" =
      some (⟨"k3", none⟩ : VarEntry)) ∧
    (Resolver._get kvDemo (Cache.update Cache.empty "a" ⟨"k3", none⟩) "a" "k3" =
      (Cache.setVal (Cache.update Cache.empty "a" ⟨"k3", none⟩) "a" none,
       Except.ok none, [RemoteOp.read "k3"]) ∧
     Resolver.var
       (Resolver._get kvDemo (Cache.update Cache.empty "a" ⟨"k3", none⟩)
         "a" "k3").1 "a" = none) :=
  ⟨rfl, rfl,
   c8_unset_key_absent_success kvDemo
     (Cache.update Cache.empty "a" ⟨"k3", none⟩) "a" "k3" ⟨"k3", none⟩ rfl rfl⟩

theorem c10_witness :
    (kvDemo.write "n" "p" = Except.ok ()) ∧
    (Resolver.set kvDemo Cache.empty "n" "p" none =
      (Cache.update Cache.empty "n" ⟨"n", some "p"⟩, Except.ok (),
       [RemoteOp.write "n" "p"])) :=
  ⟨rfl, c10_set_undefined_third_arg kvDemo Cache.empty "n" "p" rfl⟩
